import Mathlib

/-! helloworld1: a loadable kernel module with an init and an exit callback

Shallow embedding of `src/test_modules/helloworld1.c`.

The C file has two functions, `whatever_init_name` and `whatever_exit_name`,
three `MODULE_*` metadata declarations and the two registrations
`module_init(...)` / `module_exit(...)`.  Both functions take `void` and act
only on the kernel log, so they are embedded as state-passing functions on a
`Kernel` state that holds the log next to the parts of the host the callbacks
could reach but do not touch (the metadata section and the module-table entry).
-/

namespace HelloWorld1

/-! ## Host context -/

/-- The eight printk severities of the kernel log. -/
inductive LogLevel where
  | emerg | alert | crit | err | warning | notice | info | debug
  deriving DecidableEq, Repr

/-- One record of the kernel log: a severity and the text that was printed. -/
structure LogRecord where
  level : LogLevel
  text : String
  deriving DecidableEq, Repr

/-- Tags of the entries of a module's metadata section. -/
inductive ModInfoTag where
  | license | author | description
  deriving DecidableEq, Repr

/-- One `tag=value` entry of the metadata section. -/
structure ModInfo where
  tag : ModInfoTag
  value : String
  deriving DecidableEq, Repr

/-- The status of the module in the host's module table. -/
inductive ModuleState where
  | Unloaded | Loaded
  deriving DecidableEq, Repr

/-- The host context a callback runs in: the kernel log, the metadata section
of the module image and the module-table status. -/
structure Kernel where
  log : List LogRecord
  modinfo : List ModInfo
  state : ModuleState
  deriving DecidableEq, Repr

/-- Modelled from the spec: the `pr_info` macro of `linux/printk.h` is not part
of the repository.  Following the spec ("emit an informational log line to the
host's kernel log facility", "write a single line of text to the host's
kernel-log sink") it appends one record of level `info` carrying the given
text to the log and touches nothing else. -/
def pr_info (fmt : String) (k : Kernel) : Kernel :=
  { k with log := k.log ++ [LogRecord.mk LogLevel.info fmt] }

/-! ## The source file -/

/-- Modelled from the spec: the macro `MODULE_LICENSE` of `linux/module.h`
is not part of the repository; it records a license identifier string in the
metadata block. -/
def MODULE_LICENSE (s : String) : ModInfo := ModInfo.mk ModInfoTag.license s

/-- Modelled from the spec: the macro `MODULE_AUTHOR` of `linux/module.h`
is not part of the repository; it records an author string in the metadata
block. -/
def MODULE_AUTHOR (s : String) : ModInfo := ModInfo.mk ModInfoTag.author s

/-- Modelled from the spec: the macro `MODULE_DESCRIPTION` of `linux/module.h`
is not part of the repository; it records a description string in the metadata
block. -/
def MODULE_DESCRIPTION (s : String) : ModInfo := ModInfo.mk ModInfoTag.description s

/-- The metadata block of the file, lines 23-25, in source order. -/
def modinfo : List ModInfo :=
  [ MODULE_LICENSE "GPL",
    MODULE_AUTHOR "Gianmarco Bencivenni",
    MODULE_DESCRIPTION "A sample helloworld loadable kernel module" ]

/-- The function `static int __init whatever_init_name(void)`, lines 27-32:
`pr_info("Hello kernel 1\n"); return 0;`. -/
def whatever_init_name (k : Kernel) : Int × Kernel :=
  let k1 := pr_info "Hello kernel 1\n" k
  (0, k1)

/-- The function `static void __exit whatever_exit_name(void)`, lines 34-37:
`pr_info("Goodbye kernel 1\n");`. -/
def whatever_exit_name (k : Kernel) : Unit × Kernel :=
  let k1 := pr_info "Goodbye kernel 1\n" k
  ((), k1)

/-- What a module registers with the host: an init entry and an exit entry. -/
structure Module where
  init : Kernel → Int × Kernel
  exit : Kernel → Unit × Kernel

/-- Modelled from the spec: the macro `module_init` of `linux/module.h` is not
part of the repository; it registers the init entry of the module. -/
def module_init (f : Kernel → Int × Kernel) (m : Module) : Module :=
  { m with init := f }

/-- Modelled from the spec: the macro `module_exit` of `linux/module.h` is not
part of the repository; it registers the exit entry of the module. -/
def module_exit (f : Kernel → Unit × Kernel) (m : Module) : Module :=
  { m with exit := f }

/-- A module whose entries do nothing, before any registration. -/
def emptyModule : Module :=
  Module.mk (fun k => (0, k)) (fun k => ((), k))

/-- The module the file defines, lines 39-41:
`module_init(whatever_init_name); module_exit(whatever_exit_name);`. -/
def helloworld1 : Module :=
  module_exit whatever_exit_name (module_init whatever_init_name emptyModule)

/-! ## The host loader -/

/-- A callback invocation made by the host, with the status init returned. -/
inductive Call where
  | init (ret : Int)
  | exit
  deriving DecidableEq, Repr

/-- A request made to the host loader. -/
inductive Request where
  | load | unload
  deriving DecidableEq, Repr

/-- The host loader: the kernel state and the history of the callback
invocations it has made so far. -/
structure Loader where
  k : Kernel
  calls : List Call
  deriving DecidableEq, Repr

/-- Modelled from the spec: the host loader is not part of the repository.
"Transition Unloaded→Loaded fires the init callback": a load request on an
unloaded module runs init; "returning zero signals success and permits the
load to proceed; returning any non-zero value signals failure and the host
aborts the load" (the module never reaches `Loaded`).  The host owns the
module-table status, so it writes the status after the callback returns. -/
def load (m : Module) (h : Loader) : Loader :=
  let r := m.init h.k
  { k := { r.2 with state := if r.1 = 0 then ModuleState.Loaded else ModuleState.Unloaded },
    calls := h.calls ++ [Call.init r.1] }

/-- Modelled from the spec: the host loader is not part of the repository.
"Transition Loaded→Unloaded fires the exit callback": an unload request on a
loaded module runs exit and the status becomes `Unloaded`. -/
def unload (m : Module) (h : Loader) : Loader :=
  let r := m.exit h.k
  { k := { r.2 with state := ModuleState.Unloaded },
    calls := h.calls ++ [Call.exit] }

/-- Modelled from the spec: the step function of the two-state lifecycle
machine.  "No other transitions exist": a load request on a loaded module and
an unload request on an unloaded module are rejected (`none`). -/
def step (m : Module) (h : Loader) : Request → Option Loader
  | Request.load =>
    match h.k.state with
    | ModuleState.Unloaded => some (load m h)
    | ModuleState.Loaded => none
  | Request.unload =>
    match h.k.state with
    | ModuleState.Loaded => some (unload m h)
    | ModuleState.Unloaded => none

/-- Modelled from the spec: a run of the host over a list of requests; a
rejected request leaves the host as it was. -/
def run (m : Module) (h : Loader) : List Request → Loader
  | [] => h
  | r :: rs =>
    match step m h r with
    | some h1 => run m h1 rs
    | none => run m h rs

/-- The host before the first load cycle: the module is unloaded, the log
holds `L`, the metadata section holds `mi`, and no callback has run. -/
def boot (L : List LogRecord) (mi : List ModInfo) : Loader :=
  Loader.mk (Kernel.mk L mi ModuleState.Unloaded) []

/-! ## Vocabulary of the properties -/

/-- The greeting line: informational level, text `Hello kernel 1`, newline-terminated. -/
def greeting : LogRecord := LogRecord.mk LogLevel.info "Hello kernel 1\n"

/-- The farewell line: informational level, text `Goodbye kernel 1`, newline-terminated. -/
def farewell : LogRecord := LogRecord.mk LogLevel.info "Goodbye kernel 1\n"

/-- The kernel state after `n` consecutive calls of init. -/
def initTimes : Nat → Kernel → Kernel
  | 0, k => k
  | n + 1, k => initTimes n (whatever_init_name k).2

/-- A callback of the module, named. -/
inductive Callback where
  | init | exit
  deriving DecidableEq, Repr

/-- The kernel state after the given callbacks have run in order. -/
def replay : List Callback → Kernel → Kernel
  | [], k => k
  | Callback.init :: cs, k => replay cs (whatever_init_name k).2
  | Callback.exit :: cs, k => replay cs (whatever_exit_name k).2

/-- Checks a call history: every exit is preceded, in its load cycle, by an
init that returned zero.  The flag says whether such an init is pending. -/
def exitGuarded : Bool → List Call → Bool
  | _, [] => true
  | _, Call.init r :: cs => exitGuarded (decide (r = 0)) cs
  | ok, Call.exit :: cs => ok && exitGuarded false cs

/-- Checks a log: every farewell line is paired with an earlier greeting line
that no earlier farewell has been paired with.  The counter is the number of
greeting lines not yet paired. -/
def paired : Nat → List LogRecord → Bool
  | _, [] => true
  | n, r :: rs =>
    if r = greeting then paired (n + 1) rs
    else if r = farewell then decide (0 < n) && paired (n - 1) rs
    else paired n rs

/-- The log lines of `n` complete load cycles. -/
def cycleLog : Nat → List LogRecord
  | 0 => []
  | n + 1 => greeting :: farewell :: cycleLog n

/-- The callback invocations of `n` complete load cycles. -/
def cycleCalls : Nat → List Call
  | 0 => []
  | n + 1 => Call.init 0 :: Call.exit :: cycleCalls n

/-- The log line of a load cycle that is still open, if the module is loaded. -/
def openLog : ModuleState → List LogRecord
  | ModuleState.Loaded => [greeting]
  | ModuleState.Unloaded => []

/-- The callback invocation of a load cycle that is still open, if the module is loaded. -/
def openCalls : ModuleState → List Call
  | ModuleState.Loaded => [Call.init 0]
  | ModuleState.Unloaded => []

/-- The shape of a host reached from `boot L mi`: some number of complete load
cycles, followed by one open cycle exactly when the module is loaded. -/
def Inv (L : List LogRecord) (h : Loader) : Prop :=
  ∃ n, h.calls = cycleCalls n ++ openCalls h.k.state ∧
       h.k.log = L ++ (cycleLog n ++ openLog h.k.state)

/-- A module whose init emits a line and then fails with status `-12`; used to
exercise the abort branch of `load`. -/
def failingModule : Module :=
  Module.mk (fun k => (-12, pr_info "failing\n" k)) (fun k => ((), k))

/-! ## Basic facts about the callbacks -/

theorem pr_info_log (fmt : String) (k : Kernel) :
    (pr_info fmt k).log = k.log ++ [LogRecord.mk LogLevel.info fmt] := rfl

theorem init_eq (k : Kernel) :
    whatever_init_name k = (0, { k with log := k.log ++ [greeting] }) := rfl

theorem exit_eq (k : Kernel) :
    whatever_exit_name k = ((), { k with log := k.log ++ [farewell] }) := rfl

theorem greeting_ne_farewell : greeting ≠ farewell := by decide

theorem initTimes_log (n : Nat) (k : Kernel) :
    (initTimes n k).log = k.log ++ List.replicate n greeting := by
  induction n generalizing k with
  | zero => simp [initTimes]
  | succ n ih =>
    rw [initTimes, ih, init_eq]
    simp [List.replicate_succ]

theorem initTimes_frame (n : Nat) (k : Kernel) :
    (initTimes n k).modinfo = k.modinfo ∧ (initTimes n k).state = k.state := by
  induction n generalizing k with
  | zero => simp [initTimes]
  | succ n ih =>
    rw [initTimes]
    exact ih _

/-! ## The claims about the callbacks -/

/-- C1: the init callback `whatever_init_name` returns the status code 0 on
every invocation, from every host context (any log, any metadata, any module
status, after any sequence of earlier callback runs); no host context makes it
return a non-zero value. -/
theorem C1_init_always_returns_zero :
    (∀ k : Kernel, (whatever_init_name k).1 = 0) ∧
    (∀ (cs : List Callback) (k : Kernel), (whatever_init_name (replay cs k)).1 = 0) ∧
    ¬ ∃ k : Kernel, (whatever_init_name k).1 ≠ 0 := by
  refine ⟨fun _ => rfl, fun _ _ => rfl, ?_⟩
  rintro ⟨k, hk⟩
  exact hk rfl

/-- C2 (scenario 1): for every prior log `L`, one run of init returns success
and leaves the log equal to `L` followed by exactly one new record, of level
`info` with text "Hello kernel 1" and a final newline; the new record is not
the farewell line, the records of `L` are where they were, and nothing else of
the host context changes. -/
theorem C2_init_appends_greeting (L : List LogRecord) (mi : List ModInfo) (st : ModuleState) :
    whatever_init_name (Kernel.mk L mi st)
        = (0, Kernel.mk (L ++ [LogRecord.mk LogLevel.info "Hello kernel 1\n"]) mi st) ∧
    (whatever_init_name (Kernel.mk L mi st)).2.log.length = L.length + 1 ∧
    (whatever_init_name (Kernel.mk L mi st)).2.log.take L.length = L ∧
    (whatever_init_name (Kernel.mk L mi st)).2.log.drop L.length = [greeting] ∧
    farewell ∉ (whatever_init_name (Kernel.mk L mi st)).2.log.drop L.length := by
  refine ⟨rfl, ?_, ?_, ?_, ?_⟩
  · simp [init_eq]
  · simp [init_eq]
  · simp [init_eq]
  · simp only [init_eq, List.drop_left, List.mem_singleton]
    exact fun h => greeting_ne_farewell h.symm

/-- C3 (scenario 2): for every prior log `L`, one run of the exit callback
`whatever_exit_name` leaves the log equal to `L` followed by exactly one new
record, of level `info` with text "Goodbye kernel 1" and a final newline, which
differs from the greeting line; the callback returns the unit value and is a
total function, so it has no failing outcome. -/
theorem C3_exit_appends_farewell (L : List LogRecord) (mi : List ModInfo) (st : ModuleState) :
    whatever_exit_name (Kernel.mk L mi st)
        = ((), Kernel.mk (L ++ [LogRecord.mk LogLevel.info "Goodbye kernel 1\n"]) mi st) ∧
    (whatever_exit_name (Kernel.mk L mi st)).2.log.length = L.length + 1 ∧
    (whatever_exit_name (Kernel.mk L mi st)).2.log.take L.length = L ∧
    (whatever_exit_name (Kernel.mk L mi st)).2.log.drop L.length = [farewell] ∧
    LogRecord.mk LogLevel.info "Goodbye kernel 1\n" ≠ LogRecord.mk LogLevel.info "Hello kernel 1\n" := by
  refine ⟨rfl, ?_, ?_, ?_, ?_⟩
  · simp [exit_eq]
  · simp [exit_eq]
  · simp [exit_eq]
  · decide

/-- C4 (scenario 3): the metadata block consists of exactly three entries, the
license string "GPL", the author string "Gianmarco Bencivenni" and the
description string "A sample helloworld loadable kernel module"; neither
callback reads or changes the metadata: with any metadata section `mi` in place
of the one of the host context, init returns the same status and both callbacks
produce the same log and the same module status, and the section is left as it
was. -/
theorem C4_metadata_constant_and_unused :
    modinfo = [ ModInfo.mk ModInfoTag.license "GPL",
                ModInfo.mk ModInfoTag.author "Gianmarco Bencivenni",
                ModInfo.mk ModInfoTag.description "A sample helloworld loadable kernel module" ] ∧
    (∀ (k : Kernel) (mi : List ModInfo),
      (whatever_init_name { k with modinfo := mi }).1 = (whatever_init_name k).1 ∧
      (whatever_init_name { k with modinfo := mi }).2.log = (whatever_init_name k).2.log ∧
      (whatever_init_name { k with modinfo := mi }).2.state = (whatever_init_name k).2.state ∧
      (whatever_init_name { k with modinfo := mi }).2.modinfo = mi) ∧
    (∀ (k : Kernel) (mi : List ModInfo),
      (whatever_exit_name { k with modinfo := mi }).1 = (whatever_exit_name k).1 ∧
      (whatever_exit_name { k with modinfo := mi }).2.log = (whatever_exit_name k).2.log ∧
      (whatever_exit_name { k with modinfo := mi }).2.state = (whatever_exit_name k).2.state ∧
      (whatever_exit_name { k with modinfo := mi }).2.modinfo = mi) :=
  ⟨rfl, fun _ _ => ⟨rfl, rfl, rfl, rfl⟩, fun _ _ => ⟨rfl, rfl, rfl, rfl⟩⟩

/-- C8: the module keeps no state and is deterministic: in any two host
contexts (any prior logs, any module status, any earlier callback runs) init
returns the same status, zero, init appends the same record and exit appends
the same record; each callback changes the log only, by appending its one
line, and leaves the rest of the host context as it was. -/
theorem C8_stateless_deterministic :
    (∀ k1 k2 : Kernel,
      (whatever_init_name k1).1 = (whatever_init_name k2).1 ∧
      (whatever_init_name k1).2.log.drop k1.log.length
        = (whatever_init_name k2).2.log.drop k2.log.length ∧
      (whatever_exit_name k1).2.log.drop k1.log.length
        = (whatever_exit_name k2).2.log.drop k2.log.length) ∧
    (∀ (cs : List Callback) (k : Kernel),
      whatever_init_name (replay cs k)
        = (0, { replay cs k with log := (replay cs k).log ++ [greeting] }) ∧
      whatever_exit_name (replay cs k)
        = ((), { replay cs k with log := (replay cs k).log ++ [farewell] })) ∧
    (∀ k : Kernel,
      whatever_init_name k = (0, { k with log := k.log ++ [greeting] }) ∧
      whatever_exit_name k = ((), { k with log := k.log ++ [farewell] })) := by
  refine ⟨fun k1 k2 => ⟨rfl, ?_, ?_⟩, fun _ _ => ⟨rfl, rfl⟩, fun _ => ⟨rfl, rfl⟩⟩
  · simp [init_eq]
  · simp [exit_eq]

/-- C9: init has no guard against being run twice: for every `n`, each of `n`
consecutive runs of init returns 0, and the log after them is the prior log
followed by `n` copies of the greeting line (the rest of the host context is
unchanged); in particular two runs append the greeting twice, and a second run
changes the log again, so init is not idempotent on the log. -/
theorem C9_no_double_init_guard (n : Nat) (k : Kernel) :
    (∀ i, i < n → (whatever_init_name (initTimes i k)).1 = 0) ∧
    (initTimes n k).log = k.log ++ List.replicate n greeting ∧
    (initTimes n k).modinfo = k.modinfo ∧ (initTimes n k).state = k.state ∧
    (whatever_init_name (whatever_init_name k).2).1 = 0 ∧
    (whatever_init_name (whatever_init_name k).2).2.log = k.log ++ [greeting, greeting] ∧
    (whatever_init_name (whatever_init_name k).2).2.log ≠ (whatever_init_name k).2.log := by
  refine ⟨fun _ _ => rfl, initTimes_log n k, (initTimes_frame n k).1, (initTimes_frame n k).2,
    rfl, ?_, ?_⟩
  · simp [init_eq]
  · intro h
    have := congrArg List.length h
    simp [init_eq] at this

/-- C10: the greeting is unconditional and is the only message of init: from
every host context the value 0 is returned together with the state that
`pr_info` left after printing the greeting, the records init adds are exactly
the one greeting record, and every record it adds has level `info` (none has
an error or warning level). -/
theorem C10_greeting_unconditional (k : Kernel) :
    whatever_init_name k = (0, pr_info "Hello kernel 1\n" k) ∧
    (whatever_init_name k).2.log = k.log ++ [greeting] ∧
    (∀ r, r ∈ (whatever_init_name k).2.log.drop k.log.length →
      r = greeting ∧ r.level = LogLevel.info ∧ r.text = "Hello kernel 1\n") ∧
    ((whatever_init_name k).2.log.drop k.log.length).length = 1 := by
  refine ⟨rfl, rfl, ?_, ?_⟩
  · intro r hr
    simp only [init_eq, List.drop_left, List.mem_singleton] at hr
    subst hr
    exact ⟨rfl, rfl, rfl⟩
  · simp [init_eq]

/-! ## Basic facts about the host loader -/

theorem load_state_iff (m : Module) (h : Loader) :
    (load m h).k.state = ModuleState.Loaded ↔ (m.init h.k).1 = 0 := by
  unfold load
  by_cases hz : (m.init h.k).1 = 0 <;> simp [hz]

theorem load_failing_stays_unloaded (h : Loader) :
    (load failingModule h).k.state = ModuleState.Unloaded ∧
    (load failingModule h).calls = h.calls ++ [Call.init (-12)] := by
  constructor
  · unfold load failingModule
    simp
  · rfl

theorem load_helloworld1 (h : Loader) :
    load helloworld1 h
      = Loader.mk (Kernel.mk (h.k.log ++ [greeting]) h.k.modinfo ModuleState.Loaded)
          (h.calls ++ [Call.init 0]) := rfl

theorem unload_helloworld1 (h : Loader) :
    unload helloworld1 h
      = Loader.mk (Kernel.mk (h.k.log ++ [farewell]) h.k.modinfo ModuleState.Unloaded)
          (h.calls ++ [Call.exit]) := rfl

theorem cycleLog_snoc (n : Nat) :
    cycleLog n ++ [greeting, farewell] = cycleLog (n + 1) := by
  induction n with
  | zero => rfl
  | succ n ih =>
    show greeting :: farewell :: (cycleLog n ++ [greeting, farewell]) = _
    rw [ih]
    rfl

theorem cycleCalls_snoc (n : Nat) :
    cycleCalls n ++ [Call.init 0, Call.exit] = cycleCalls (n + 1) := by
  induction n with
  | zero => rfl
  | succ n ih =>
    show Call.init 0 :: Call.exit :: (cycleCalls n ++ [Call.init 0, Call.exit]) = _
    rw [ih]
    rfl

theorem inv_boot (L : List LogRecord) (mi : List ModInfo) : Inv L (boot L mi) :=
  ⟨0, rfl, by simp [boot, cycleLog, openLog]⟩

theorem inv_step (L : List LogRecord) (h h1 : Loader) (r : Request)
    (hi : Inv L h) (hs : step helloworld1 h r = some h1) : Inv L h1 := by
  obtain ⟨n, hc, hl⟩ := hi
  cases r with
  | load =>
    cases hst : h.k.state with
    | Loaded => simp [step, hst] at hs
    | Unloaded =>
      simp only [step, hst, Option.some.injEq] at hs
      subst hs
      rw [hst] at hc hl
      refine ⟨n, ?_, ?_⟩
      · rw [load_helloworld1, hc]
        simp [openCalls]
      · rw [load_helloworld1, hl]
        simp [openLog]
  | unload =>
    cases hst : h.k.state with
    | Unloaded => simp [step, hst] at hs
    | Loaded =>
      simp only [step, hst, Option.some.injEq] at hs
      subst hs
      rw [hst] at hc hl
      refine ⟨n + 1, ?_, ?_⟩
      · rw [unload_helloworld1, hc, ← cycleCalls_snoc]
        simp [openCalls]
      · rw [unload_helloworld1, hl, ← cycleLog_snoc]
        simp [openLog]

theorem inv_run (L : List LogRecord) (rs : List Request) (h : Loader)
    (hi : Inv L h) : Inv L (run helloworld1 h rs) := by
  induction rs generalizing h with
  | nil => exact hi
  | cons r rs ih =>
    unfold run
    cases hs : step helloworld1 h r with
    | none => exact ih h hi
    | some h1 => exact ih h1 (inv_step L h h1 r hi hs)

theorem exitGuarded_cycles (n : Nat) (b : Bool) (st : ModuleState) :
    exitGuarded b (cycleCalls n ++ openCalls st) = true := by
  induction n generalizing b with
  | zero => cases st <;> simp [cycleCalls, openCalls, exitGuarded]
  | succ n ih =>
    show exitGuarded b (Call.init 0 :: Call.exit :: (cycleCalls n ++ openCalls st)) = true
    simp [exitGuarded, ih]

theorem paired_cycles (n : Nat) (st : ModuleState) :
    paired 0 (cycleLog n ++ openLog st) = true := by
  induction n with
  | zero => cases st <;> simp [cycleLog, openLog, paired]
  | succ n ih =>
    show paired 0 (greeting :: farewell :: (cycleLog n ++ openLog st)) = true
    have hne : farewell ≠ greeting := fun h => greeting_ne_farewell h.symm
    simp [paired, hne, ih]

theorem paired_count (s : List LogRecord) (n : Nat) (hp : paired n s = true) :
    s.count farewell ≤ n + s.count greeting := by
  induction s generalizing n with
  | nil => simp
  | cons r rs ih =>
    have hne : farewell ≠ greeting := fun h => greeting_ne_farewell h.symm
    unfold paired at hp
    by_cases hg : r = greeting
    · subst hg
      rw [if_pos rfl] at hp
      have := ih (n + 1) hp
      rw [List.count_cons_self, List.count_cons_of_ne hne]
      omega
    · rw [if_neg hg] at hp
      by_cases hf : r = farewell
      · subst hf
        rw [if_pos rfl] at hp
        simp only [Bool.and_eq_true, decide_eq_true_eq] at hp
        have := ih (n - 1) hp.2
        rw [List.count_cons_self, List.count_cons_of_ne greeting_ne_farewell]
        omega
      · rw [if_neg hf] at hp
        have := ih n hp
        rw [List.count_cons_of_ne (Ne.symm hf), List.count_cons_of_ne (Ne.symm hg)]
        exact this

/-! ## The claims about the lifecycle -/

/-- C5: in the two-state lifecycle machine, a load request on an unloaded
module, with any prior log and any call history, is accepted, runs init once
(which returns zero), appends the greeting line to the log exactly once and
ends in state `Loaded`; no load step of this module ends in `Unloaded`, so the
abort branch of the host is never taken. -/
theorem C5_load_reaches_loaded (h : Loader) (hu : h.k.state = ModuleState.Unloaded) :
    step helloworld1 h Request.load = some (load helloworld1 h) ∧
    (helloworld1.init h.k).1 = 0 ∧
    (load helloworld1 h).k.state = ModuleState.Loaded ∧
    (load helloworld1 h).k.log = h.k.log ++ [greeting] ∧
    (load helloworld1 h).k.modinfo = h.k.modinfo ∧
    (load helloworld1 h).calls = h.calls ++ [Call.init 0] ∧
    ¬ ∃ h1, step helloworld1 h Request.load = some h1 ∧ h1.k.state = ModuleState.Unloaded := by
  have hs : step helloworld1 h Request.load = some (load helloworld1 h) := by
    simp [step, hu]
  refine ⟨hs, rfl, rfl, rfl, rfl, rfl, ?_⟩
  rintro ⟨h1, h1s, h1u⟩
  rw [hs, Option.some.injEq] at h1s
  subst h1s
  rw [load_helloworld1] at h1u
  cases h1u

/-- Witness of C5 on the freshly booted host with an empty log. -/
theorem C5_load_reaches_loaded_witness :
    (boot [] modinfo).k.state = ModuleState.Unloaded ∧
    step helloworld1 (boot [] modinfo) Request.load
      = some (Loader.mk (Kernel.mk [greeting] modinfo ModuleState.Loaded) [Call.init 0]) :=
  ⟨rfl, (C5_load_reaches_loaded (boot [] modinfo) rfl).1⟩

/-- C6: an unload request on a loaded module is accepted, runs exit once,
appends the farewell line to the log exactly once and ends in state
`Unloaded`; the state after a load from `Unloaded` is such a loaded state, and
a load followed by an unload, started from `Unloaded` with prior log `L`, ends
in `Unloaded` with the log equal to `L`, then the greeting line, then the
farewell line, and nothing else. -/
theorem C6_unload_and_full_cycle (h0 h : Loader)
    (hu : h0.k.state = ModuleState.Unloaded) (hl : h.k.state = ModuleState.Loaded) :
    (step helloworld1 h Request.unload = some (unload helloworld1 h) ∧
     (unload helloworld1 h).k.state = ModuleState.Unloaded ∧
     (unload helloworld1 h).k.log = h.k.log ++ [farewell] ∧
     (unload helloworld1 h).k.modinfo = h.k.modinfo ∧
     (unload helloworld1 h).calls = h.calls ++ [Call.exit]) ∧
    (load helloworld1 h0).k.state = ModuleState.Loaded ∧
    run helloworld1 h0 [Request.load, Request.unload]
      = Loader.mk (Kernel.mk (h0.k.log ++ [greeting, farewell]) h0.k.modinfo ModuleState.Unloaded)
          (h0.calls ++ [Call.init 0, Call.exit]) := by
  refine ⟨⟨?_, rfl, rfl, rfl, rfl⟩, rfl, ?_⟩
  · simp [step, hl]
  · have h1 : step helloworld1 h0 Request.load = some (load helloworld1 h0) := by
      simp [step, hu]
    have h2 : step helloworld1 (load helloworld1 h0) Request.unload
        = some (unload helloworld1 (load helloworld1 h0)) := by
      simp [step, load_helloworld1]
    simp only [run, h1, h2]
    simp [load_helloworld1, unload_helloworld1]

/-- Witness of C6: one full load cycle from the freshly booted host with an empty log. -/
theorem C6_unload_and_full_cycle_witness :
    (boot [] modinfo).k.state = ModuleState.Unloaded ∧
    (load helloworld1 (boot [] modinfo)).k.state = ModuleState.Loaded ∧
    run helloworld1 (boot [] modinfo) [Request.load, Request.unload]
      = Loader.mk (Kernel.mk [greeting, farewell] modinfo ModuleState.Unloaded)
          [Call.init 0, Call.exit] :=
  ⟨rfl, rfl,
    (C6_unload_and_full_cycle (boot [] modinfo) (load helloworld1 (boot [] modinfo)) rfl rfl).2.2⟩

/-- C7: invariant of the lifecycle machine: in the host reached from the
unloaded state by any list of requests, every exit invocation of the call
history is preceded in its load cycle by an init invocation that returned
zero; the part of the log written since the start pairs every farewell line
with an earlier greeting line that no earlier farewell was paired with, and
it holds at most as many farewell lines as greeting lines.  Both follow from
the shape of the run: complete cycles, then an open one iff the module is
loaded. -/
theorem C7_exit_only_after_successful_init
    (L : List LogRecord) (mi : List ModInfo) (rs : List Request) :
    exitGuarded false (run helloworld1 (boot L mi) rs).calls = true ∧
    (run helloworld1 (boot L mi) rs).k.log.take L.length = L ∧
    paired 0 ((run helloworld1 (boot L mi) rs).k.log.drop L.length) = true ∧
    ((run helloworld1 (boot L mi) rs).k.log.drop L.length).count farewell
      ≤ ((run helloworld1 (boot L mi) rs).k.log.drop L.length).count greeting ∧
    ∃ n, (run helloworld1 (boot L mi) rs).calls
           = cycleCalls n ++ openCalls (run helloworld1 (boot L mi) rs).k.state ∧
         (run helloworld1 (boot L mi) rs).k.log
           = L ++ (cycleLog n ++ openLog (run helloworld1 (boot L mi) rs).k.state) := by
  obtain ⟨n, hc, hl⟩ := inv_run L rs (boot L mi) (inv_boot L mi)
  have hp : paired 0 ((run helloworld1 (boot L mi) rs).k.log.drop L.length) = true := by
    rw [hl, List.drop_left]
    exact paired_cycles n _
  refine ⟨?_, ?_, hp, ?_, n, hc, hl⟩
  · rw [hc]
    exact exitGuarded_cycles n false _
  · rw [hl, List.take_left]
  · simpa using paired_count _ 0 hp

end HelloWorld1
